import Mathlib

/-!
Verification of the safe remote fetch orchestrator in
`src/pages/api/scrape.ts` (lightweight-scraper-next).

The development shallowly embeds the module: pure string helpers become
Lean functions over `List Char`; the external Node facilities that the
module consumes (the `URL` constructor, `dns.lookup`, `net.isIP`, the
Playwright renderer, timers) are supplied as explicit oracle parameters,
and the asynchronous control flow of the handler becomes sequential
state passing over an explicit `St` record that tracks the browser
resource, the closed flag and the event trace.
-/

namespace Scrape

/-! ## Character and list utilities (ASCII-level models of the JS string ops) -/

/-- ASCII decimal digit test (models the digit check behind `net.isIP` v4). -/
def isDigitC (c : Char) : Bool := 48 ≤ c.toNat && c.toNat ≤ 57

/-- ASCII hexadecimal digit test, both cases (for `net.isIP` v6). -/
def isHexC (c : Char) : Bool :=
  (48 ≤ c.toNat && c.toNat ≤ 57) || (97 ≤ c.toNat && c.toNat ≤ 102) ||
    (65 ≤ c.toNat && c.toNat ≤ 70)

/-- Value of one hexadecimal digit. -/
def hexValC (c : Char) : Nat :=
  if 48 ≤ c.toNat && c.toNat ≤ 57 then c.toNat - 48
  else if 97 ≤ c.toNat && c.toNat ≤ 102 then c.toNat - 87
  else c.toNat - 55

/-- Decimal value of a digit string (the value `Number(p)` takes on an
all-digit token `p`). -/
def decVal (p : List Char) : Nat := p.foldl (fun a c => a * 10 + (c.toNat - 48)) 0

/-- Hexadecimal value of a hex-digit string. -/
def hexVal16 (p : List Char) : Nat := p.foldl (fun a c => a * 16 + hexValC c) 0

/-- Model of the JS `String.prototype.split` with a one-character
separator: `splitC '.' "a.b"` is `[['a'],['b']]`. -/
def splitC (sep : Char) : List Char → List (List Char)
  | [] => [[]]
  | c :: rest =>
    if c = sep then [] :: splitC sep rest
    else
      match splitC sep rest with
      | s :: ss => (c :: s) :: ss
      | [] => [[c]]

/-- Model of the JS split on the two-character separator `"::"`. -/
def splitDColon : List Char → List (List Char)
  | [] => [[]]
  | ':' :: ':' :: rest => [] :: splitDColon rest
  | c :: rest =>
    match splitDColon rest with
    | s :: ss => (c :: s) :: ss
    | [] => [[c]]

/-- Substring test (models `String.prototype.includes`). -/
def containsSub (needle : List Char) : List Char → Bool
  | [] => needle.isEmpty
  | c :: rest => needle.isPrefixOf (c :: rest) || containsSub needle rest

/-- ASCII lower-casing of one character (the fragment of
`String.prototype.toLowerCase` exercised by IP strings). -/
def toLowerC (c : Char) : Char :=
  if 65 ≤ c.toNat && c.toNat ≤ 90 then Char.ofNat (c.toNat + 32) else c

/-! ## `net.isIP`: textual IPv4 / IPv6 address recognition

Model of Node's `net.isIP`, used by `isPrivateIp` to decide the address
family.  An IPv4 text is four dot-separated decimal octets `0..255`
without leading zeros; an IPv6 text is colon-separated groups of at most
four hex digits with at most one `::` elision.  (Embedded-IPv4 tails and
zone indices are not modelled; no claim depends on them.) -/

/-- One IPv4 octet token: nonempty decimal digits, no leading zero, value
at most 255.  Returns the value `Number` would produce on it. -/
def parseOctet (p : List Char) : Option Nat :=
  if !p.isEmpty && p.all isDigitC && (p.length == 1 || p.headD '0' ≠ '0')
      && decVal p ≤ 255 then
    some (decVal p)
  else none

/-- IPv4 textual parse: the four octet values, if the text is a valid
dotted quad. -/
def parseIPv4c (cs : List Char) : Option (Nat × Nat × Nat × Nat) :=
  match splitC '.' cs with
  | [p1, p2, p3, p4] =>
    match parseOctet p1, parseOctet p2, parseOctet p3, parseOctet p4 with
    | some a, some b, some c, some d => some (a, b, c, d)
    | _, _, _, _ => none
  | _ => none

/-- One IPv6 group token: one to four hex digits. -/
def validGroup (p : List Char) : Bool := !p.isEmpty && p.length ≤ 4 && p.all isHexC

/-- Parse a list of group tokens to their values. -/
def parseGroups (parts : List (List Char)) : Option (List Nat) :=
  if parts.all validGroup then some (parts.map hexVal16) else none

/-- IPv6 textual parse: the eight 16-bit group values.  The text is split
on `"::"`; with no elision there must be exactly eight groups, with one
elision the elided run is filled with zeros. -/
def parseIPv6c (cs : List Char) : Option (List Nat) :=
  match splitDColon cs with
  | [one] =>
    if (splitC ':' one).length == 8 then parseGroups (splitC ':' one) else none
  | [l, r] =>
    match parseGroups (if l.isEmpty then [] else splitC ':' l),
          parseGroups (if r.isEmpty then [] else splitC ':' r) with
    | some lg, some rg =>
      if lg.length + rg.length ≤ 7 then
        some (lg ++ List.replicate (8 - lg.length - rg.length) 0 ++ rg)
      else none
    | _, _ => none
  | _ => none

/-- Model of `net.isIP` on a character list: 4, 6 or 0. -/
def net_isIPc (cs : List Char) : Nat :=
  if (parseIPv4c cs).isSome then 4
  else if (parseIPv6c cs).isSome then 6
  else 0

/-- Model of `net.isIP` (string wrapper). -/
def net_isIP (s : String) : Nat := net_isIPc s.data

/-- String wrapper for the IPv4 parse. -/
def parseIPv4 (s : String) : Option (Nat × Nat × Nat × Nat) := parseIPv4c s.data

/-- String wrapper for the IPv6 parse. -/
def parseIPv6 (s : String) : Option (List Nat) := parseIPv6c s.data

/-! ## The private-address classifiers from `scrape.ts` -/

/-- Embedding of `isPrivateIpv4(octets)` from `scrape.ts` (lines 33-42).
The source destructures `const [a, b] = octets`; a missing element is JS
`undefined`, whose comparisons are all false, which the short-list cases
reproduce. -/
def isPrivateIpv4 (octets : List Nat) : Bool :=
  match octets with
  | [] => false
  | [a] => a == 10 || a == 127 || a == 0
  | a :: b :: _ =>
    a == 10 || a == 127 || (a == 169 && b == 254) || (a == 192 && b == 168) ||
      (a == 172 && 16 ≤ b && b ≤ 31) || a == 0

/-- Embedding of `isPrivateIp(ip)` from `scrape.ts` (lines 44-60), on the
character list of the input.  In the v4 branch the source does
`ip.split('.').map((p) => Number(p))`; under the `net.isIP === 4` guard
every token is a plain decimal numeral, where `Number` is `decVal`. -/
def isPrivateIpC (cs : List Char) : Bool :=
  if net_isIPc cs == 4 then
    isPrivateIpv4 ((splitC '.' cs).map decVal)
  else if net_isIPc cs == 6 then
    let lower := cs.map toLowerC
    lower == "::1".data ||
      "fe80".data.isPrefixOf lower || "fe80:".data.isPrefixOf lower ||
      "fc".data.isPrefixOf lower || "fd".data.isPrefixOf lower
  else false

/-- String wrapper for the private-address classifier. -/
def isPrivateIp (ip : String) : Bool := isPrivateIpC ip.data

/-! ## Canonical IPv6 text (RFC 5952)

The spec claims quantify over IPv6 addresses "in canonical lowercase
textual form"; `canonicalIPv6` renders a semantic address (eight 16-bit
groups) to that form: lowercase hex, no leading zeros inside a group,
and the leftmost-longest run of two or more zero groups elided to `::`. -/

/-- Lowercase hex digit character for a nibble value. -/
def hexDigitC (n : Nat) : Char :=
  match n with
  | 0 => '0' | 1 => '1' | 2 => '2' | 3 => '3' | 4 => '4'
  | 5 => '5' | 6 => '6' | 7 => '7' | 8 => '8' | 9 => '9'
  | 10 => 'a' | 11 => 'b' | 12 => 'c' | 13 => 'd' | 14 => 'e'
  | _ => 'f'

/-- Shortest lowercase hex rendering of a 16-bit group value. -/
def hexChars (n : Nat) : List Char :=
  if n < 16 then [hexDigitC n]
  else if n < 256 then [hexDigitC (n / 16), hexDigitC (n % 16)]
  else if n < 4096 then [hexDigitC (n / 256), hexDigitC (n / 16 % 16), hexDigitC (n % 16)]
  else [hexDigitC (n / 4096), hexDigitC (n / 256 % 16), hexDigitC (n / 16 % 16),
        hexDigitC (n % 16)]

/-- Join tokens with `':'` separators. -/
def joinColon : List (List Char) → List Char
  | [] => []
  | [p] => p
  | p :: ps => p ++ ':' :: joinColon ps

/-- Number of leading zero groups. -/
def leadZeros : List Nat → Nat
  | 0 :: t => leadZeros t + 1
  | _ => 0

/-- Leftmost-longest run of at least two zero groups, as
`(start index, length)`; `none` when no such run exists.  A later run
wins only when strictly longer, which realizes the leftmost tie-break. -/
def bestRun : List Nat → Option (Nat × Nat)
  | [] => none
  | g :: t =>
    if leadZeros (g :: t) ≥ 2 then
      match bestRun t with
      | some (i, l) =>
        if l > leadZeros (g :: t) then some (i + 1, l)
        else some (0, leadZeros (g :: t))
      | none => some (0, leadZeros (g :: t))
    else (bestRun t).map (fun p => (p.1 + 1, p.2))

/-- Canonical text of an eight-group IPv6 address, on character lists. -/
def renderIPv6g (gs : List Nat) : List Char :=
  match bestRun gs with
  | none => joinColon (gs.map hexChars)
  | some (i, l) =>
    joinColon ((gs.take i).map hexChars) ++ ':' :: ':' ::
      joinColon ((gs.drop (i + l)).map hexChars)

/-- Canonical text of an eight-group IPv6 address. -/
def canonicalIPv6 (gs : List Nat) : String := ⟨renderIPv6g gs⟩

/-! ## Spec-side range predicates

These follow the spec wording ("10.0.0.0/8, ..., fc00::/7, fe80::/10")
numerically, to be compared with the textual classifier of the code. -/

/-- The 32-bit value of an IPv4 address given by octets. -/
def v4val (a b c d : Nat) : Nat := ((a * 256 + b) * 256 + c) * 256 + d

/-- Modelled from the spec: IPv4 membership in
10.0.0.0/8 ∪ 127.0.0.0/8 ∪ 169.254.0.0/16 ∪ 192.168.0.0/16 ∪
172.16.0.0/12 ∪ 0.0.0.0/8, on the 32-bit value. -/
def specPrivate4 (n : Nat) : Bool :=
  n / 2 ^ 24 == 10 || n / 2 ^ 24 == 127 || n / 2 ^ 16 == 43518 ||
    n / 2 ^ 16 == 49320 || n / 2 ^ 20 == 2753 || n / 2 ^ 24 == 0

/-- The 128-bit value of an IPv6 address given by its eight groups. -/
def ipv6val (gs : List Nat) : Nat := gs.foldl (fun a g => a * 65536 + g) 0

/-- Membership in fc00::/7 (top seven bits 1111110). -/
def inFc00_7 (n : Nat) : Bool := n / 2 ^ 121 == 126

/-- Membership in fe80::/10 (top ten bits 1111111010). -/
def inFe80_10 (n : Nat) : Bool := n / 2 ^ 118 == 1018

/-- Modelled from the spec: the claimed IPv6 private set
{::1} ∪ fc00::/7 ∪ fe80::/10, on the 128-bit value. -/
def claimedPrivate6 (n : Nat) : Bool := n == 1 || inFc00_7 n || inFe80_10 n

/-- Group values whose shortest hex text begins with `fc`. -/
def fcTextGroup (g : Nat) : Bool :=
  g == 0xfc || (0xfc0 ≤ g && g ≤ 0xfcf) || (0xfc00 ≤ g && g ≤ 0xfcff)

/-- Group values whose shortest hex text begins with `fd`. -/
def fdTextGroup (g : Nat) : Bool :=
  g == 0xfd || (0xfd0 ≤ g && g ≤ 0xfdf) || (0xfd00 ≤ g && g ≤ 0xfdff)

/-! ## The host safety check

`isHostAllowed` consumes two external capabilities: the WHATWG `URL`
constructor and `dns.lookup`.  Both are passed as oracle functions:
`parse` returns the parsed components (`none` models a constructor
throw), `lookup` returns the resolved address texts (`none` models a
rejected lookup promise).  The returned event list records the DNS
queries actually performed. -/

/-- Components of a parsed URL that the module reads. -/
structure UrlParts where
  protocol : String
  hostname : String
deriving DecidableEq

/-- Observable external events of one handler run. -/
inductive Ev where
  | dns (host : String)
  | launch
  | setTimeoutsEv (nav act : Nat)
  | goto (attempt : Nat)
  | sleep (ms : Nat)
deriving DecidableEq

/-- Embedding of `isValidHttpUrl(urlString)` from `scrape.ts`
(lines 24-31). -/
def isValidHttpUrl (parse : String → Option UrlParts) (urlString : String) : Bool :=
  match parse urlString with
  | some u => u.protocol == "http:" || u.protocol == "https:"
  | none => false

/-- Embedding of `isHostAllowed(urlString)` from `scrape.ts`
(lines 62-83), returning the decision together with the trace of DNS
queries made. -/
def isHostAllowed (parse : String → Option UrlParts)
    (lookup : String → Option (List String)) (urlString : String) :
    Bool × List Ev :=
  match parse urlString with
  | none => (false, [])
  | some u =>
    if u.hostname = "" then (false, [])
    else if u.hostname = "localhost" then (false, [])
    else
      match lookup u.hostname with
      | none => (false, [Ev.dns u.hostname])
      | some addrs =>
        if addrs.isEmpty then (false, [Ev.dns u.hostname])
        else (addrs.all (fun ip => !(ip == "") && !isPrivateIp ip),
              [Ev.dns u.hostname])

/-! ## The handler

The handler's asynchronous control flow is embedded as sequential state
passing.  `St` carries the two mutable variables of the source
(`browser`, `pageClosed`), counters observing how often `browser.close()`
was invoked and how often it succeeded, the per-page timeout values
installed by `setDefaultNavigationTimeout` / `setDefaultTimeout`, the
budget handed to `withTimeout`, and the external event trace. -/

/-- The global timeout constant from `scrape.ts` line 6. -/
def TIMEOUT : Nat := 20000

/-- Mutable state of one handler invocation. -/
structure St where
  browserLaunched : Bool := false
  pageClosed : Bool := false
  closeCalls : Nat := 0
  succCloses : Nat := 0
  navTimeout : Option Nat := none
  actTimeout : Option Nat := none
  raceMs : Option Nat := none
  trace : List Ev := []
deriving DecidableEq

/-- How far the scrape operation had progressed when the outer timer
fired (the operation suspends only at its await points). -/
inductive Cut where
  | preLaunch
  | duringWork
deriving DecidableEq

/-- Oracle for external nondeterminism: URL parsing, DNS, renderer
behaviour, the timer race and whether `browser.close()` throws.  A
`some msg` outcome models a rejected promise carrying message `msg`. -/
structure Oracle where
  parse : String → Option UrlParts
  lookup : String → Option (List String)
  launchErr : Option String
  gotoErr : Nat → Option String
  titleText : Option String
  metaDescriptionText : Option String
  h1Text : Option String
  htmlText : String
  timerFirst : Bool
  cut : Cut
  closeFails : Bool

/-- The `try` body of `cleanup` from `scrape.ts` (lines 131-140): invoke
`browser.close()` when a browser is live and the closed flag is unset.
An `error` result models `browser.close()` throwing, carrying the state
at the throw point (the flag has not been set). -/
def cleanupBody (closeFails : Bool) (s : St) : Except St St :=
  if !s.pageClosed && s.browserLaunched then
    let s1 := { s with closeCalls := s.closeCalls + 1 }
    if closeFails then Except.error s1
    else Except.ok { s1 with pageClosed := true, succCloses := s1.succCloses + 1 }
  else Except.ok s

/-- Embedding of `cleanup` from `scrape.ts`: the body with the catch that
swallows any close error. -/
def cleanup (closeFails : Bool) (s : St) : St :=
  match cleanupBody closeFails s with
  | Except.ok s1 => s1
  | Except.error s1 => s1

/-- Result value of the scrape operation. -/
inductive OpRes where
  | summary (title metaDescription h1 : Option String)
  | debugHtml (html : String)
deriving DecidableEq

/-- The navigation retry loop from `scrape.ts` (lines 155-169), unrolled
for the source's fixed `maxAttempts = 2`: on a first failure sleep 250ms
and retry once; a second failure propagates that error. -/
def navLoop (gotoErr : Nat → Option String) : Except String Unit × List Ev :=
  match gotoErr 1 with
  | none => (Except.ok (), [Ev.goto 1])
  | some _ =>
    match gotoErr 2 with
    | none => (Except.ok (), [Ev.goto 1, Ev.sleep 250, Ev.goto 2])
    | some e2 => (Except.error e2, [Ev.goto 1, Ev.sleep 250, Ev.goto 2])

/-- The async arrow function passed to `withTimeout` (lines 145-200):
launch the browser, install per-page timeouts, navigate with one retry,
extract (full HTML in debug mode, else title/description/h1), close the
session, return the result. -/
def scrapeOp (o : Oracle) (debug : Bool) (s : St) : Except String OpRes × St :=
  match o.launchErr with
  | some m => (Except.error m, { s with trace := s.trace ++ [Ev.launch] })
  | none =>
    let s1 := { s with browserLaunched := true,
                       navTimeout := some (TIMEOUT - 2000),
                       actTimeout := some (TIMEOUT - 2000),
                       trace := s.trace ++ [Ev.launch,
                         Ev.setTimeoutsEv (TIMEOUT - 2000) (TIMEOUT - 2000)] }
    let nav := navLoop o.gotoErr
    let s2 := { s1 with trace := s1.trace ++ nav.2 }
    match nav.1 with
    | Except.error e => (Except.error e, s2)
    | Except.ok _ =>
      if debug then
        (Except.ok (OpRes.debugHtml o.htmlText), cleanup o.closeFails s2)
      else
        (Except.ok (OpRes.summary o.titleText o.metaDescriptionText o.h1Text),
         cleanup o.closeFails s2)

/-- State of the in-flight operation at the moment the outer timer
fires, per the oracle's cut point: either the browser launch had not
completed, or the browser is live with its timeouts installed. -/
def opPartialState (o : Oracle) (s : St) : St :=
  match o.cut with
  | Cut.preLaunch => s
  | Cut.duringWork =>
    { s with browserLaunched := true,
             navTimeout := some (TIMEOUT - 2000),
             actTimeout := some (TIMEOUT - 2000),
             trace := s.trace ++ [Ev.launch,
               Ev.setTimeoutsEv (TIMEOUT - 2000) (TIMEOUT - 2000)] }

/-- Embedding of `withTimeout` (lines 85-104) applied as in the handler:
race the operation against a `TIMEOUT` timer.  If the timer fires first,
the `onTimeout` cleanup runs and is awaited, and only then is the
`"Timeout"` rejection produced - the returned state therefore already
contains the cleanup's effects.  Otherwise the operation's own outcome
is returned. -/
def withTimeoutRun (o : Oracle) (debug : Bool) (s : St) : Except String OpRes × St :=
  let s0 := { s with raceMs := some TIMEOUT }
  if o.timerFirst then
    let sCut := opPartialState o s0
    (Except.error "Timeout", cleanup o.closeFails sCut)
  else scrapeOp o debug s0

/-- Responses of the handler, abstracting the JSON bodies. -/
inductive Resp where
  | methodNotAllowed
  | invalidUrl
  | disallowedHost
  | ok (r : OpRes)
  | playwrightMissing
  | timeout
  | scrapeFailed (details : Option String)
deriving DecidableEq

/-- HTTP status code of each response, as set by the source. -/
def respStatus : Resp → Nat
  | Resp.methodNotAllowed => 405
  | Resp.invalidUrl => 400
  | Resp.disallowedHost => 400
  | Resp.ok _ => 200
  | Resp.playwrightMissing => 500
  | Resp.timeout => 504
  | Resp.scrapeFailed _ => 500

/-- Embedding of the default-export `handler` (lines 106-233): method
check, URL validation, host safety check, the timed scrape, and the
error classification of the catch block. -/
def handler (o : Oracle) (method : String) (url : Option String) (debug : Bool) :
    Resp × St :=
  if method ≠ "GET" then (Resp.methodNotAllowed, {})
  else
    match url with
    | none => (Resp.invalidUrl, {})
    | some u =>
      if u = "" then (Resp.invalidUrl, {})
      else if !isValidHttpUrl o.parse u then (Resp.invalidUrl, {})
      else
        let hc := isHostAllowed o.parse o.lookup u
        if !hc.1 then (Resp.disallowedHost, { trace := hc.2 })
        else
          let r := withTimeoutRun o debug { trace := hc.2 }
          match r.1 with
          | Except.ok res => (Resp.ok res, r.2)
          | Except.error m =>
            if containsSub "Executable doesn\x27t exist".data m.data ||
                containsSub "download new browsers".data m.data then
              (Resp.playwrightMissing, cleanup o.closeFails r.2)
            else if m = "Timeout" then
              (Resp.timeout, cleanup o.closeFails r.2)
            else
              (Resp.scrapeFailed (if debug then some m else none),
               cleanup o.closeFails r.2)

/-! ## Concrete oracle instances used to witness the theorems -/

/-- A URL parser oracle mapping every input to an `https://example.com`
parse result. -/
def parseW : String → Option UrlParts := fun _ => some ⟨"https:", "example.com"⟩

/-- A DNS oracle resolving every hostname to one public address. -/
def lookupW : String → Option (List String) := fun _ => some ["93.184.216.34"]

/-- A fully successful renderer oracle. -/
def oW : Oracle :=
  ⟨parseW, lookupW, none, fun _ => none, some "T", some "M", some "H",
    "<p>x</p>", false, Cut.duringWork, false⟩

/-! ## Lemmas about the octet and address parsers -/

lemma parseOctet_eq_some {p : List Char} {v : Nat} (h : parseOctet p = some v) :
    decVal p = v ∧ v ≤ 255 ∧ p.all isDigitC = true := by
  unfold parseOctet at h
  split at h
  · rename_i hcond
    simp only [Bool.and_eq_true] at hcond
    cases h
    exact ⟨rfl, by simpa using hcond.2, hcond.1.1.2⟩
  · cases h

lemma isPrivateIp_v4_class (s : String) (a b c d : Nat)
    (h : parseIPv4 s = some (a, b, c, d)) :
    isPrivateIp s = specPrivate4 (v4val a b c d) := by
  have hc : parseIPv4c s.data = some (a, b, c, d) := h
  unfold parseIPv4c at hc
  split at hc
  case _ p1 p2 p3 p4 hs =>
    split at hc
    case _ a' b' c' d' ho1 ho2 ho3 ho4 =>
      obtain ⟨ha', hb', hcc', hd'⟩ :
          a' = a ∧ b' = b ∧ c' = c ∧ d' = d := by simpa using hc
      rw [← ha', ← hb', ← hcc', ← hd']
      have hfull : parseIPv4c s.data = some (a', b', c', d') := by
        rw [ha', hb', hcc', hd']; exact h
      obtain ⟨hda, hba, -⟩ := parseOctet_eq_some ho1
      obtain ⟨hdb, hbb, -⟩ := parseOctet_eq_some ho2
      obtain ⟨hdc, hbc, -⟩ := parseOctet_eq_some ho3
      obtain ⟨hdd, hbd, -⟩ := parseOctet_eq_some ho4
      show isPrivateIpC s.data = _
      unfold isPrivateIpC net_isIPc
      rw [hfull]
      simp only [Option.isSome_some, if_true, beq_self_eq_true]
      rw [hs]
      simp only [List.map_cons, List.map_nil]
      rw [hda, hdb, hdc, hdd, Bool.eq_iff_iff]
      simp only [isPrivateIpv4, specPrivate4, v4val, Bool.or_eq_true,
        Bool.and_eq_true, beq_iff_eq, decide_eq_true_eq]
      omega
    case _ hno =>
      cases hc
  case _ =>
    cases hc

/-- C1: for every URL whose hostname resolves to a non-empty address
set, `isHostAllowed` returns false as soon as any single resolved
address is classified private, and returns true only when every
resolved address is non-private; and the IPv4 classification agrees
exactly with membership in 10.0.0.0/8, 127.0.0.0/8, 169.254.0.0/16,
192.168.0.0/16, 172.16.0.0/12 or 0.0.0.0/8. -/
theorem c1_host_check_rejects_private
    (parse : String → Option UrlParts) (lookup : String → Option (List String))
    (u : String) (parts : UrlParts) (addrs : List String)
    (hp : parse u = some parts) (hl : lookup parts.hostname = some addrs)
    (hne : addrs ≠ []) :
    ((∃ ip ∈ addrs, isPrivateIp ip = true) →
      (isHostAllowed parse lookup u).1 = false) ∧
    ((isHostAllowed parse lookup u).1 = true →
      ∀ ip ∈ addrs, isPrivateIp ip = false) ∧
    (∀ (s : String) (a b c d : Nat), parseIPv4 s = some (a, b, c, d) →
      isPrivateIp s = specPrivate4 (v4val a b c d)) := by
  refine ⟨?_, ?_, fun s a b c d h => isPrivateIp_v4_class s a b c d h⟩ <;>
    · unfold isHostAllowed
      simp only [hp]
      by_cases h1 : parts.hostname = ""
      · simp [h1]
      · by_cases h2 : parts.hostname = "localhost"
        · simp [h1, h2]
        · rw [if_neg h1, if_neg h2]
          simp only [hl]
          have hemp : addrs.isEmpty = false := by
            cases addrs with
            | nil => exact absurd rfl hne
            | cons x t => rfl
          simp only [hemp, Bool.false_eq_true, if_false]
          first
          | · rintro ⟨ip, hip, hpriv⟩
              exact List.all_eq_false.mpr ⟨ip, hip, by simp [hpriv]⟩
          | · intro hall ip hip
              have := List.all_eq_true.mp hall ip hip
              simp only [Bool.and_eq_true, Bool.not_eq_true'] at this
              exact this.2

/-- C2 (counterexample): the claim that `isPrivateIp` accepts exactly
{::1} ∪ fc00::/7 ∪ fe80::/10 on canonical lowercase IPv6 text fails in
both directions: `fe81::1` lies in fe80::/10 yet is classified public,
and `fc::1` lies outside all three ranges yet is classified private. -/
theorem c2_ipv6_classifier_counterexample :
    canonicalIPv6 [65153, 0, 0, 0, 0, 0, 0, 1] = "fe81::1" ∧
    parseIPv6 "fe81::1" = some [65153, 0, 0, 0, 0, 0, 0, 1] ∧
    claimedPrivate6 (ipv6val [65153, 0, 0, 0, 0, 0, 0, 1]) = true ∧
    isPrivateIp "fe81::1" = false ∧
    canonicalIPv6 [252, 0, 0, 0, 0, 0, 0, 1] = "fc::1" ∧
    parseIPv6 "fc::1" = some [252, 0, 0, 0, 0, 0, 0, 1] ∧
    claimedPrivate6 (ipv6val [252, 0, 0, 0, 0, 0, 0, 1]) = false ∧
    isPrivateIp "fc::1" = true := by
  decide

/-! ## Lemmas about hex rendering -/

lemma hexDigitC_ne_colon : ∀ k, k < 16 → hexDigitC k ≠ ':' := by decide

lemma hexDigitC_eq_f : ∀ k, k < 16 → (('f' = hexDigitC k) ↔ k = 15) := by decide

lemma hexDigitC_eq_e : ∀ k, k < 16 → (('e' = hexDigitC k) ↔ k = 14) := by decide

lemma hexDigitC_eq_8 : ∀ k, k < 16 → (('8' = hexDigitC k) ↔ k = 8) := by decide

lemma hexDigitC_eq_0 : ∀ k, k < 16 → (('0' = hexDigitC k) ↔ k = 0) := by decide

lemma hexDigitC_eq_c : ∀ k, k < 16 → (('c' = hexDigitC k) ↔ k = 12) := by decide

lemma hexDigitC_eq_d : ∀ k, k < 16 → (('d' = hexDigitC k) ↔ k = 13) := by decide

lemma hexDigitC_eq_1 : ∀ k, k < 16 → (('1' = hexDigitC k) ↔ k = 1) := by decide

lemma toLowerC_hexDigitC : ∀ k, k < 16 → toLowerC (hexDigitC k) = hexDigitC k := by
  decide

lemma toLowerC_colon : toLowerC ':' = ':' := by decide

lemma hexChars_shape {n : Nat} (h : n < 65536) :
    ∃ k t, k < 16 ∧ hexChars n = hexDigitC k :: t ∧ t.length ≤ 3 := by
  unfold hexChars
  split_ifs with h1 h2 h3
  · exact ⟨n, [], h1, rfl, by simp⟩
  · exact ⟨n / 16, _, by omega, rfl, by simp⟩
  · exact ⟨n / 256, _, by omega, rfl, by simp⟩
  · exact ⟨n / 4096, _, by omega, rfl, by simp⟩

lemma hexChars_eq_one {n : Nat} (h : hexChars n = ['1']) : n = 1 := by
  unfold hexChars at h
  split_ifs at h with h1 h2 h3
  · have := List.head_eq_of_cons_eq h
    exact (hexDigitC_eq_1 n h1).mp this.symm
  all_goals simp at h

lemma map_toLowerC_hexChars {n : Nat} (h : n < 65536) :
    (hexChars n).map toLowerC = hexChars n := by
  unfold hexChars
  split_ifs with h1 h2 h3
  · rw [List.map_cons, List.map_nil, toLowerC_hexDigitC n h1]
  · rw [List.map_cons, List.map_cons, List.map_nil,
      toLowerC_hexDigitC (n / 16) (by omega), toLowerC_hexDigitC (n % 16) (by omega)]
  · rw [List.map_cons, List.map_cons, List.map_cons, List.map_nil,
      toLowerC_hexDigitC (n / 256) (by omega),
      toLowerC_hexDigitC (n / 16 % 16) (by omega),
      toLowerC_hexDigitC (n % 16) (by omega)]
  · rw [List.map_cons, List.map_cons, List.map_cons, List.map_cons, List.map_nil,
      toLowerC_hexDigitC (n / 4096) (by omega),
      toLowerC_hexDigitC (n / 256 % 16) (by omega),
      toLowerC_hexDigitC (n / 16 % 16) (by omega),
      toLowerC_hexDigitC (n % 16) (by omega)]

/-- Restricting a prefix test to the first component of an append, when
the needle fits inside it. -/
lemma isPrefixOf_append_left {α : Type} [BEq α] (needle p q : List α)
    (h : needle.length ≤ p.length) :
    needle.isPrefixOf (p ++ q) = needle.isPrefixOf p := by
  induction needle generalizing p with
  | nil => simp [List.isPrefixOf]
  | cons a as ih =>
    cases p with
    | nil => simp at h
    | cons b bs =>
      simp only [List.cons_append, List.isPrefixOf]
      rw [List.append_eq, ih bs (by simpa using h)]

/-! ## Lemmas about the zero-run finder and the renderer -/

lemma leadZeros_le_length (v : List Nat) : leadZeros v ≤ v.length := by
  induction v with
  | nil => simp [leadZeros]
  | cons g t ih =>
    by_cases hg : g = 0
    · subst hg
      rw [show leadZeros (0 :: t) = leadZeros t + 1 from rfl]
      simpa using ih
    · have : leadZeros (g :: t) = 0 := by
        unfold leadZeros
        match g, hg with
        | n + 1, _ => rfl
      simp [this]

lemma take_leadZeros (v : List Nat) :
    v.take (leadZeros v) = List.replicate (leadZeros v) 0 := by
  induction v with
  | nil => simp [leadZeros]
  | cons g t ih =>
    by_cases hg : g = 0
    · subst hg
      rw [show leadZeros (0 :: t) = leadZeros t + 1 from rfl]
      simp [List.replicate_succ, ih]
    · have : leadZeros (g :: t) = 0 := by
        unfold leadZeros
        match g, hg with
        | n + 1, _ => rfl
      simp [this]

lemma bestRun_spec {v : List Nat} {i l : Nat} (h : bestRun v = some (i, l)) :
    2 ≤ l ∧ i + l ≤ v.length ∧ (v.drop i).take l = List.replicate l 0 := by
  induction v generalizing i l with
  | nil => simp [bestRun] at h
  | cons g t ih =>
    rw [bestRun] at h
    by_cases hz : leadZeros (g :: t) ≥ 2
    · rw [if_pos hz] at h
      rcases hbt : bestRun t with _ | ⟨i0, l0⟩ <;> simp only [hbt] at h
      · cases h
        exact ⟨hz, by simpa using leadZeros_le_length (g :: t),
          by simpa using take_leadZeros (g :: t)⟩
      · by_cases hgt : l0 > leadZeros (g :: t)
        · rw [if_pos hgt] at h
          cases h
          obtain ⟨h2, hle, htk⟩ := ih hbt
          exact ⟨h2, by simp only [List.length_cons]; omega, htk⟩
        · rw [if_neg hgt] at h
          cases h
          exact ⟨hz, by simpa using leadZeros_le_length (g :: t),
            by simpa using take_leadZeros (g :: t)⟩
    · rw [if_neg hz] at h
      rcases hbt : bestRun t with _ | ⟨i0, l0⟩ <;> simp only [hbt] at h
      · cases h
      · simp only [Option.map_some'] at h
        cases h
        obtain ⟨h2, hle, htk⟩ := ih hbt
        exact ⟨h2, by simp only [List.length_cons]; omega, htk⟩

lemma bestRun_zero_head {v : List Nat} {l : Nat} (h : bestRun v = some (0, l)) :
    v.headD 1 = 0 := by
  obtain ⟨h2, hle, htk⟩ := bestRun_spec h
  rw [List.drop_zero] at htk
  cases v with
  | nil => simp at hle; omega
  | cons a t =>
    have : (a :: t).take l = 0 :: List.replicate (l - 1) 0 := by
      rw [htk]
      cases l with
      | zero => omega
      | succ m => simp [List.replicate_succ]
    cases l with
    | zero => omega
    | succ m =>
      rw [List.take_succ_cons] at this
      exact List.head_eq_of_cons_eq this

lemma joinColon_cons_cons (p q : List Char) (r : List (List Char)) :
    joinColon (p :: q :: r) = p ++ ':' :: joinColon (q :: r) := rfl

/-- Shape of the canonical render of an eight-group address: it either
elides a leading zero run (and begins with `"::"`), or begins with the
hex text of its first group followed by a colon. -/
lemma render_shape (gs : List Nat) (h8 : gs.length = 8) :
    (∃ l, bestRun gs = some (0, l) ∧
      renderIPv6g gs = ':' :: ':' :: joinColon ((gs.drop l).map hexChars)) ∨
    ((∀ l, bestRun gs ≠ some (0, l)) ∧
      ∃ tail, renderIPv6g gs = hexChars (gs.headD 0) ++ ':' :: tail) := by
  obtain ⟨g0, t, rfl⟩ : ∃ g0 t, gs = g0 :: t := by
    cases gs with
    | nil => simp at h8
    | cons a t => exact ⟨a, t, rfl⟩
  rcases hbr : bestRun (g0 :: t) with _ | ⟨i, l⟩
  · -- no elision: plain join of eight groups
    right
    refine ⟨by simp, ?_⟩
    obtain ⟨t1, t2, rfl⟩ : ∃ t1 t2, t = t1 :: t2 := by
      cases t with
      | nil => simp at h8
      | cons a t2 => exact ⟨a, t2, rfl⟩
    rw [renderIPv6g, hbr]
    exact ⟨joinColon (hexChars t1 :: t2.map hexChars), by
      simp only [List.map_cons, joinColon_cons_cons, List.headD_cons]⟩
  · cases i with
    | zero =>
      left
      exact ⟨l, rfl, by rw [renderIPv6g, hbr]; simp [joinColon]⟩
    | succ i0 =>
      right
      refine ⟨by simp, ?_⟩
      rw [renderIPv6g, hbr]
      simp only [List.take_succ_cons, List.map_cons, List.headD_cons]
      have hdrop : (g0 :: t).drop (i0 + 1 + l) = t.drop (i0 + l) := by
        rw [show i0 + 1 + l = (i0 + l) + 1 from by omega, List.drop_succ_cons]
      rw [hdrop]
      cases hti : (t.take i0).map hexChars with
      | nil =>
        exact ⟨':' :: joinColon ((t.drop (i0 + l)).map hexChars), by
          simp [joinColon]⟩
      | cons p ps =>
        exact ⟨joinColon (p :: ps) ++ ':' :: ':' ::
          joinColon ((t.drop (i0 + l)).map hexChars), by
          simp [joinColon_cons_cons, List.append_assoc]⟩

lemma render_has_colon (gs : List Nat) (h8 : gs.length = 8) :
    ':' ∈ renderIPv6g gs := by
  rcases render_shape gs h8 with ⟨l, -, heq⟩ | ⟨-, tail, heq⟩ <;> rw [heq]
  · simp
  · simp

/-! ## Bounds and inversion lemmas for the parsers -/

lemma hexValC_lt {c : Char} (h : isHexC c = true) : hexValC c < 16 := by
  unfold isHexC at h
  simp only [Bool.or_eq_true, Bool.and_eq_true, decide_eq_true_eq] at h
  unfold hexValC
  split_ifs with h1 h2
  · simp only [Bool.and_eq_true, decide_eq_true_eq] at h1
    omega
  · simp only [Bool.and_eq_true, decide_eq_true_eq] at h2
    omega
  · simp only [Bool.and_eq_true, decide_eq_true_eq, not_and, not_le] at h1 h2
    omega

lemma hexfold_lt {p : List Char} (h : p.all isHexC = true) (acc : Nat) :
    p.foldl (fun a c => a * 16 + hexValC c) acc < (acc + 1) * 16 ^ p.length := by
  induction p generalizing acc with
  | nil => simp
  | cons c cs ih =>
    simp only [List.all_cons, Bool.and_eq_true] at h
    have hc := hexValC_lt h.1
    have hstep := ih h.2 (acc * 16 + hexValC c)
    have hmono : (acc * 16 + hexValC c + 1) * 16 ^ cs.length ≤
        (acc + 1) * 16 ^ (cs.length + 1) := by
      rw [pow_succ]
      calc (acc * 16 + hexValC c + 1) * 16 ^ cs.length
          ≤ ((acc + 1) * 16) * 16 ^ cs.length :=
            Nat.mul_le_mul_right _ (by omega)
        _ = (acc + 1) * (16 ^ cs.length * 16) := by ring
    simp only [List.foldl_cons, List.length_cons]
    exact lt_of_lt_of_le hstep (by rw [pow_succ] at hmono ⊢; omega)

lemma hexVal16_lt {p : List Char} (hlen : p.length ≤ 4) (hall : p.all isHexC = true) :
    hexVal16 p < 65536 := by
  have h1 := hexfold_lt hall 0
  have hpow : 16 ^ p.length ≤ 65536 := by
    have : 16 ^ p.length ≤ 16 ^ 4 := Nat.pow_le_pow_right (by omega) hlen
    norm_num at this
    exact this
  unfold hexVal16
  omega

lemma parseGroups_spec {parts : List (List Char)} {gs : List Nat}
    (h : parseGroups parts = some gs) :
    gs.length = parts.length ∧ ∀ g ∈ gs, g < 65536 := by
  unfold parseGroups at h
  split_ifs at h with hall
  · cases h
    refine ⟨by simp, ?_⟩
    intro g hg
    obtain ⟨p, hp, rfl⟩ := List.mem_map.mp hg
    have hv := List.all_eq_true.mp hall p hp
    unfold validGroup at hv
    simp only [Bool.and_eq_true, decide_eq_true_eq] at hv
    exact hexVal16_lt hv.1.2 hv.2

lemma parseIPv6c_spec {cs : List Char} {gs : List Nat}
    (h : parseIPv6c cs = some gs) :
    gs.length = 8 ∧ ∀ g ∈ gs, g < 65536 := by
  unfold parseIPv6c at h
  split at h
  · -- no "::"
    rename_i one heq
    split_ifs at h with hlen
    obtain ⟨hl, hb⟩ := parseGroups_spec h
    exact ⟨by rw [hl]; simpa using hlen, hb⟩
  · -- one "::"
    rename_i l r heq
    split at h
    case _ lg rg hlg hrg =>
      split_ifs at h with hsum
      cases h
      obtain ⟨hll, hlb⟩ := parseGroups_spec hlg
      obtain ⟨hrl, hrb⟩ := parseGroups_spec hrg
      constructor
      · simp only [List.length_append, List.length_replicate]
        omega
      · intro g hg
        rcases List.mem_append.mp hg with hg' | hg'
        · rcases List.mem_append.mp hg' with hg'' | hg''
          · exact hlb g hg''
          · rw [List.eq_of_mem_replicate hg'']; omega
        · exact hrb g hg'
    case _ => cases h
  · cases h

lemma splitC_ne_nil (sep : Char) (cs : List Char) : splitC sep cs ≠ [] := by
  cases cs with
  | nil => simp [splitC]
  | cons c rest =>
    rw [splitC]
    split_ifs
    · simp
    · cases hs : splitC sep rest <;> simp

lemma splitC_mem (sep : Char) {c : Char} {cs : List Char} (hm : c ∈ cs)
    (hne : c ≠ sep) :
    ∃ p ∈ splitC sep cs, c ∈ p := by
  induction cs with
  | nil => simp at hm
  | cons x rest ih =>
    rw [splitC]
    by_cases hx : x = sep
    · rw [if_pos hx]
      rcases List.mem_cons.mp hm with rfl | hm'
      · exact absurd hx hne
      · obtain ⟨p, hp, hcp⟩ := ih hm'
        exact ⟨p, List.mem_cons_of_mem _ hp, hcp⟩
    · rw [if_neg hx]
      cases hs : splitC sep rest with
      | nil => exact absurd hs (splitC_ne_nil sep rest)
      | cons s ss =>
        rcases List.mem_cons.mp hm with rfl | hm'
        · exact ⟨c :: s, List.mem_cons_self _ _, List.mem_cons_self _ _⟩
        · obtain ⟨p, hp, hcp⟩ := ih hm'
          rw [hs] at hp
          rcases List.mem_cons.mp hp with rfl | hp'
          · exact ⟨x :: p, List.mem_cons_self _ _, List.mem_cons_of_mem _ hcp⟩
          · exact ⟨p, List.mem_cons_of_mem _ hp', hcp⟩

lemma parseIPv4c_inv {cs : List Char} {a b c d : Nat}
    (h : parseIPv4c cs = some (a, b, c, d)) :
    ∃ p1 p2 p3 p4, splitC '.' cs = [p1, p2, p3, p4] ∧
      parseOctet p1 = some a ∧ parseOctet p2 = some b ∧
      parseOctet p3 = some c ∧ parseOctet p4 = some d := by
  unfold parseIPv4c at h
  split at h
  case _ p1 p2 p3 p4 hs =>
    split at h
    case _ a' b' c' d' ho1 ho2 ho3 ho4 =>
      obtain ⟨rfl, rfl, rfl, rfl⟩ : a' = a ∧ b' = b ∧ c' = c ∧ d' = d := by
        simpa using h
      exact ⟨p1, p2, p3, p4, hs, ho1, ho2, ho3, ho4⟩
    case _ => cases h
  case _ => cases h

lemma parseIPv4c_colon {cs : List Char} (h : ':' ∈ cs) : parseIPv4c cs = none := by
  obtain ⟨p, hp, hcp⟩ := splitC_mem '.' h (by decide)
  have hoct : parseOctet p = none := by
    unfold parseOctet
    rw [if_neg]
    intro hcond
    simp only [Bool.and_eq_true] at hcond
    have := List.all_eq_true.mp hcond.1.1.2 ':' hcp
    exact absurd this (by decide)
  cases hres : parseIPv4c cs with
  | none => rfl
  | some v =>
    obtain ⟨va, vb, vc, vd⟩ := v
    obtain ⟨p1, p2, p3, p4, hs, ho1, ho2, ho3, ho4⟩ := parseIPv4c_inv hres
    rw [hs] at hp
    simp only [List.mem_cons, List.not_mem_nil, or_false] at hp
    rcases hp with rfl | rfl | rfl | rfl
    · rw [ho1] at hoct; cases hoct
    · rw [ho2] at hoct; cases hoct
    · rw [ho3] at hoct; cases hoct
    · rw [ho4] at hoct; cases hoct

/-! ## Lowercase invariance and inversion of the render -/

lemma map_toLowerC_joinColon {xs : List (List Char)}
    (h : ∀ p ∈ xs, p.map toLowerC = p) :
    (joinColon xs).map toLowerC = joinColon xs := by
  induction xs with
  | nil => rfl
  | cons p ps ih =>
    cases ps with
    | nil => simpa [joinColon] using h p (List.mem_cons_self _ _)
    | cons q qs =>
      rw [joinColon_cons_cons, List.map_append, h p (List.mem_cons_self _ _),
        List.map_cons, toLowerC_colon,
        ih (fun x hx => h x (List.mem_cons_of_mem _ hx))]

lemma render_lower {gs : List Nat} (hlt : ∀ g ∈ gs, g < 65536) :
    (renderIPv6g gs).map toLowerC = renderIPv6g gs := by
  rcases hbr : bestRun gs with _ | ⟨i, l⟩
  · rw [show renderIPv6g gs = joinColon (gs.map hexChars) from by
      rw [renderIPv6g, hbr]]
    apply map_toLowerC_joinColon
    intro p hp
    obtain ⟨g, hg, rfl⟩ := List.mem_map.mp hp
    exact map_toLowerC_hexChars (hlt g hg)
  · rw [show renderIPv6g gs = joinColon ((gs.take i).map hexChars) ++ ':' :: ':' ::
        joinColon ((gs.drop (i + l)).map hexChars) from by rw [renderIPv6g, hbr]]
    rw [List.map_append, List.map_cons, List.map_cons, toLowerC_colon,
      map_toLowerC_joinColon, map_toLowerC_joinColon]
    · intro p hp
      obtain ⟨g, hg, rfl⟩ := List.mem_map.mp hp
      exact map_toLowerC_hexChars (hlt g (List.drop_subset _ _ hg))
    · intro p hp
      obtain ⟨g, hg, rfl⟩ := List.mem_map.mp hp
      exact map_toLowerC_hexChars (hlt g (List.take_subset _ _ hg))

lemma hexChars_ne_nil (n : Nat) : hexChars n ≠ [] := by
  unfold hexChars
  split_ifs <;> simp

lemma joinColon_map_eq_single {R : List Nat}
    (h : joinColon (R.map hexChars) = ['1']) : R = [1] := by
  cases R with
  | nil => simp [joinColon] at h
  | cons r R2 =>
    cases R2 with
    | nil =>
      rw [List.map_cons, List.map_nil] at h
      have : hexChars r = ['1'] := h
      rw [hexChars_eq_one this]
    | cons r2 R3 =>
      rw [List.map_cons, List.map_cons, joinColon_cons_cons] at h
      have hlen := congrArg List.length h
      have hne := hexChars_ne_nil r
      simp at hlen
      have : 1 ≤ (hexChars r).length := List.length_pos.mpr hne
      omega

/-! ## Characterizing the prefix tests of the v6 branch on rendered text -/

lemma fe80_prefix_char {a : Nat} (ha : a < 65536) (tail : List Char) :
    ((['f', 'e', '8', '0'] : List Char).isPrefixOf (hexChars a ++ ':' :: tail)
      || (['f', 'e', '8', '0', ':'] : List Char).isPrefixOf (hexChars a ++ ':' :: tail)) =
      (a == 65152) := by
  unfold hexChars
  split_ifs with h1 h2 h3
  · simp only [List.cons_append, List.nil_append, List.isPrefixOf]
    have : (a == 65152) = false := by rw [beq_eq_false_iff_ne]; omega
    rw [this]
    simp
  · simp only [List.cons_append, List.nil_append, List.isPrefixOf]
    have : (a == 65152) = false := by rw [beq_eq_false_iff_ne]; omega
    rw [this]
    simp
  · simp only [List.cons_append, List.nil_append, List.isPrefixOf]
    have : (a == 65152) = false := by rw [beq_eq_false_iff_ne]; omega
    rw [this]
    simp
  · simp only [List.cons_append, List.nil_append, List.isPrefixOf]
    rw [Bool.eq_iff_iff]
    simp only [Bool.or_eq_true, Bool.and_eq_true, beq_iff_eq]
    rw [hexDigitC_eq_f (a / 4096) (by omega), hexDigitC_eq_e (a / 256 % 16) (by omega),
      hexDigitC_eq_8 (a / 16 % 16) (by omega), hexDigitC_eq_0 (a % 16) (by omega)]
    constructor
    · rintro (⟨hf, he, h8, h0, -⟩ | ⟨hf, he, h8, h0, -⟩) <;> omega
    · intro hv
      exact Or.inl ⟨by omega, by omega, by omega, by omega, by simp [List.isPrefixOf]⟩

lemma fc_prefix_char {a : Nat} (ha : a < 65536) (tail : List Char) :
    ((['f', 'c'] : List Char).isPrefixOf (hexChars a ++ ':' :: tail)) = fcTextGroup a := by
  unfold hexChars fcTextGroup
  split_ifs with h1 h2 h3 <;>
    simp only [List.cons_append, List.nil_append, List.isPrefixOf] <;>
    rw [Bool.eq_iff_iff] <;>
    simp only [Bool.or_eq_true, Bool.and_eq_true, beq_iff_eq, decide_eq_true_eq]
  · constructor
    · rintro ⟨-, hfalse, -⟩
      exact absurd hfalse (by decide)
    · omega
  · rw [hexDigitC_eq_f (a / 16) (by omega), hexDigitC_eq_c (a % 16) (by omega)]
    constructor
    · rintro ⟨hf, hc, -⟩; omega
    · intro hv
      exact ⟨by omega, by omega, by simp [List.isPrefixOf]⟩
  · rw [hexDigitC_eq_f (a / 256) (by omega), hexDigitC_eq_c (a / 16 % 16) (by omega)]
    constructor
    · rintro ⟨hf, hc, -⟩; omega
    · intro hv
      exact ⟨by omega, by omega, by simp [List.isPrefixOf]⟩
  · rw [hexDigitC_eq_f (a / 4096) (by omega), hexDigitC_eq_c (a / 256 % 16) (by omega)]
    constructor
    · rintro ⟨hf, hc, -⟩; omega
    · intro hv
      exact ⟨by omega, by omega, by simp [List.isPrefixOf]⟩

lemma fd_prefix_char {a : Nat} (ha : a < 65536) (tail : List Char) :
    ((['f', 'd'] : List Char).isPrefixOf (hexChars a ++ ':' :: tail)) = fdTextGroup a := by
  unfold hexChars fdTextGroup
  split_ifs with h1 h2 h3 <;>
    simp only [List.cons_append, List.nil_append, List.isPrefixOf] <;>
    rw [Bool.eq_iff_iff] <;>
    simp only [Bool.or_eq_true, Bool.and_eq_true, beq_iff_eq, decide_eq_true_eq]
  · constructor
    · rintro ⟨-, hfalse, -⟩
      exact absurd hfalse (by decide)
    · omega
  · rw [hexDigitC_eq_f (a / 16) (by omega), hexDigitC_eq_d (a % 16) (by omega)]
    constructor
    · rintro ⟨hf, hc, -⟩; omega
    · intro hv
      exact ⟨by omega, by omega, by simp [List.isPrefixOf]⟩
  · rw [hexDigitC_eq_f (a / 256) (by omega), hexDigitC_eq_d (a / 16 % 16) (by omega)]
    constructor
    · rintro ⟨hf, hc, -⟩; omega
    · intro hv
      exact ⟨by omega, by omega, by simp [List.isPrefixOf]⟩
  · rw [hexDigitC_eq_f (a / 4096) (by omega), hexDigitC_eq_d (a / 256 % 16) (by omega)]
    constructor
    · rintro ⟨hf, hc, -⟩; omega
    · intro hv
      exact ⟨by omega, by omega, by simp [List.isPrefixOf]⟩

/-- C2 (amended): for every IPv6 address whose canonical lowercase text
the classifier receives, `isPrivateIp` returns true exactly when the
address is ::1, or its first 16-bit group is exactly 0xfe80 (so
fe80::/10 addresses whose first group differs, such as fe81::, are not
classified private), or the shortest hex text of its first group begins
with `fc` or `fd` (which covers all of fc00::/7 but also first groups
such as 0x00fc that lie outside it). -/
theorem c2_ipv6_classifier_amended (s : String) (gs : List Nat)
    (hp : parseIPv6 s = some gs) (hcan : canonicalIPv6 gs = s) :
    isPrivateIp s =
      (gs == [0, 0, 0, 0, 0, 0, 0, 1] || gs.headD 0 == 65152 ||
        fcTextGroup (gs.headD 0) || fdTextGroup (gs.headD 0)) := by
  obtain ⟨h8, hlt⟩ := parseIPv6c_spec hp
  have hdata : s.data = renderIPv6g gs := by rw [← hcan]; rfl
  obtain ⟨g0, t, rfl⟩ : ∃ g0 t, gs = g0 :: t := by
    cases gs with
    | nil => simp at h8
    | cons a t => exact ⟨a, t, rfl⟩
  have hg0 : g0 < 65536 := hlt g0 (List.mem_cons_self _ _)
  have hnet : net_isIPc s.data = 6 := by
    unfold net_isIPc
    rw [show parseIPv4c s.data = none from by
        rw [hdata]; exact parseIPv4c_colon (render_has_colon _ h8),
      show parseIPv6c s.data = some (g0 :: t) from hp]
    rfl
  have hbranch : isPrivateIp s =
      (s.data.map toLowerC == "::1".data ||
        "fe80".data.isPrefixOf (s.data.map toLowerC) ||
        "fe80:".data.isPrefixOf (s.data.map toLowerC) ||
        "fc".data.isPrefixOf (s.data.map toLowerC) ||
        "fd".data.isPrefixOf (s.data.map toLowerC)) := by
    show isPrivateIpC s.data = _
    unfold isPrivateIpC
    rw [hnet]
    rfl
  rw [hbranch]
  have hlow : s.data.map toLowerC = s.data := by
    rw [hdata]; exact render_lower hlt
  rw [hlow, hdata]
  simp only [show ("::1".data : List Char) = [':', ':', '1'] from rfl,
    show ("fe80".data : List Char) = ['f', 'e', '8', '0'] from rfl,
    show ("fe80:".data : List Char) = ['f', 'e', '8', '0', ':'] from rfl,
    show ("fc".data : List Char) = ['f', 'c'] from rfl,
    show ("fd".data : List Char) = ['f', 'd'] from rfl,
    List.headD_cons]
  rcases render_shape (g0 :: t) h8 with ⟨l, hbr, hren⟩ | ⟨hnz, tail, hren⟩
  · -- leading zero run is elided: the text begins with "::"
    have hg0z : g0 = 0 := by simpa using bestRun_zero_head hbr
    subst hg0z
    rw [hren]
    have hfe : ((['f', 'e', '8', '0'] : List Char).isPrefixOf
        (':' :: ':' :: joinColon ((List.drop l (0 :: t)).map hexChars))) = false := by
      simp [List.isPrefixOf]
    have hfec : ((['f', 'e', '8', '0', ':'] : List Char).isPrefixOf
        (':' :: ':' :: joinColon ((List.drop l (0 :: t)).map hexChars))) = false := by
      simp [List.isPrefixOf]
    have hfc : ((['f', 'c'] : List Char).isPrefixOf
        (':' :: ':' :: joinColon ((List.drop l (0 :: t)).map hexChars))) = false := by
      simp [List.isPrefixOf]
    have hfd : ((['f', 'd'] : List Char).isPrefixOf
        (':' :: ':' :: joinColon ((List.drop l (0 :: t)).map hexChars))) = false := by
      simp [List.isPrefixOf]
    have heqm : ((':' :: ':' :: joinColon ((List.drop l (0 :: t)).map hexChars) :
        List Char) == [':', ':', '1']) = ((0 :: t : List Nat) == [0, 0, 0, 0, 0, 0, 0, 1]) := by
      rw [Bool.eq_iff_iff, beq_iff_eq, beq_iff_eq]
      constructor
      · intro hJ
        have hJ1 : joinColon ((List.drop l (0 :: t)).map hexChars) = ['1'] := by
          simpa using hJ
        have hdropl : List.drop l (0 :: t) = [1] := joinColon_map_eq_single hJ1
        obtain ⟨h2l, hll, htk⟩ := bestRun_spec hbr
        have hsplit := (List.take_append_drop l (0 :: t)).symm
        rw [List.drop_zero] at htk
        rw [htk, hdropl] at hsplit
        have hlen8 := congrArg List.length hsplit
        simp at hlen8
        have h8l : t.length = 7 := by simpa using h8
        have hl7 : l = 7 := by omega
        rw [hl7] at hsplit
        exact hsplit
      · intro hgs
        have ht7 : t = [0, 0, 0, 0, 0, 0, 1] := by
          simpa using hgs
        subst ht7
        have hbr7 : bestRun (0 :: [0, 0, 0, 0, 0, 0, 1] : List Nat) = some (0, 7) := by
          decide
        rw [hbr7] at hbr
        injection hbr with hbr'
        have hl7 : (7 : Nat) = l := congrArg Prod.snd hbr'
        rw [← hl7]
        rfl
    rw [heqm, hfe, hfec, hfc, hfd]
    simp [fcTextGroup, fdTextGroup]
  · -- the text begins with the hex digits of the first group
    rw [hren]
    simp only [List.headD_cons]
    have hne : (g0 :: t : List Nat) ≠ [0, 0, 0, 0, 0, 0, 0, 1] := by
      intro heq
      exact hnz 7 (by rw [heq]; decide)
    have h5 : ((g0 :: t : List Nat) == [0, 0, 0, 0, 0, 0, 0, 1]) = false :=
      beq_eq_false_iff_ne.mpr hne
    obtain ⟨k, tk, hk16, hkeq, -⟩ := hexChars_shape hg0
    have h1 : ((hexChars g0 ++ ':' :: tail : List Char) == [':', ':', '1']) = false := by
      rw [beq_eq_false_iff_ne, hkeq]
      intro hcontra
      rw [List.cons_append] at hcontra
      have hhead : hexDigitC k = ':' := List.head_eq_of_cons_eq hcontra
      exact hexDigitC_ne_colon k hk16 hhead
    have h2 := fe80_prefix_char hg0 tail
    have h3 := fc_prefix_char hg0 tail
    have h4 := fd_prefix_char hg0 tail
    rw [h1, h5, Bool.false_or, Bool.false_or]
    rw [h2, h3, h4]

/-- Witness for C1 at a host resolving to one private and one public
address. -/
theorem c1_host_check_rejects_private_witness :
    ((∃ ip ∈ ["10.0.0.5", "8.8.8.8"], isPrivateIp ip = true) →
      (isHostAllowed (fun _ => some ⟨"https:", "internal.test"⟩)
        (fun _ => some ["10.0.0.5", "8.8.8.8"]) "https://internal.test").1 = false) ∧
    ((isHostAllowed (fun _ => some ⟨"https:", "internal.test"⟩)
        (fun _ => some ["10.0.0.5", "8.8.8.8"]) "https://internal.test").1 = true →
      ∀ ip ∈ ["10.0.0.5", "8.8.8.8"], isPrivateIp ip = false) ∧
    (∀ (s : String) (a b c d : Nat), parseIPv4 s = some (a, b, c, d) →
      isPrivateIp s = specPrivate4 (v4val a b c d)) :=
  c1_host_check_rejects_private (fun _ => some ⟨"https:", "internal.test"⟩)
    (fun _ => some ["10.0.0.5", "8.8.8.8"]) "https://internal.test"
    ⟨"https:", "internal.test"⟩ ["10.0.0.5", "8.8.8.8"] rfl rfl (by decide)

/-- Witness for the amended C2 at the canonical text `fe80::1`. -/
theorem c2_ipv6_classifier_amended_witness :
    isPrivateIp "fe80::1" =
      (([65152, 0, 0, 0, 0, 0, 0, 1] : List Nat) == [0, 0, 0, 0, 0, 0, 0, 1] ||
        ([65152, 0, 0, 0, 0, 0, 0, 1] : List Nat).headD 0 == 65152 ||
        fcTextGroup (([65152, 0, 0, 0, 0, 0, 0, 1] : List Nat).headD 0) ||
        fdTextGroup (([65152, 0, 0, 0, 0, 0, 0, 1] : List Nat).headD 0)) :=
  c2_ipv6_classifier_amended "fe80::1" [65152, 0, 0, 0, 0, 0, 0, 1]
    (by decide) (by decide)

/-! ## Lemmas about the handler state machine -/

lemma cleanup_fields (f : Bool) (s : St) :
    (cleanup f s).navTimeout = s.navTimeout ∧
    (cleanup f s).actTimeout = s.actTimeout ∧
    (cleanup f s).raceMs = s.raceMs ∧
    (cleanup f s).trace = s.trace ∧
    (cleanup f s).browserLaunched = s.browserLaunched := by
  unfold cleanup cleanupBody
  split_ifs <;> simp

/-- C7: the literal hostname "localhost" is rejected unconditionally and
without any DNS query (the event trace of the check is empty). -/
theorem c7_localhost_rejected_without_dns
    (parse : String → Option UrlParts) (lookup : String → Option (List String))
    (u : String) (parts : UrlParts)
    (hp : parse u = some parts) (hl : parts.hostname = "localhost") :
    isHostAllowed parse lookup u = (false, []) := by
  unfold isHostAllowed
  simp only [hp]
  rw [if_neg (by rw [hl]; decide), if_pos hl]

/-- Witness for C7. -/
theorem c7_localhost_rejected_without_dns_witness :
    isHostAllowed (fun _ => some ⟨"http:", "localhost"⟩) lookupW
      "http://localhost" = (false, []) :=
  c7_localhost_rejected_without_dns (fun _ => some ⟨"http:", "localhost"⟩)
    lookupW "http://localhost" ⟨"http:", "localhost"⟩ rfl rfl

/-- C9: session close is idempotent: a second cleanup after a successful
one is a no-op, a cleanup on an already-closed session is a no-op, and
two cleanups in sequence close the browser successfully at most once. -/
theorem c9_close_idempotent (s : St) (f1 f2 : Bool) :
    (s.pageClosed = true → cleanup f1 s = s) ∧
    (f1 = false → cleanup f2 (cleanup f1 s) = cleanup f1 s) ∧
    (cleanup f2 (cleanup f1 s)).succCloses ≤ s.succCloses + 1 := by
  unfold cleanup cleanupBody
  split_ifs <;> simp_all

/-- Witness for C9: closing twice from a live-browser state. -/
theorem c9_close_idempotent_witness :
    (({ browserLaunched := true } : St).pageClosed = true →
      cleanup false { browserLaunched := true } = { browserLaunched := true }) ∧
    (false = false →
      cleanup false (cleanup false { browserLaunched := true }) =
        cleanup false { browserLaunched := true }) ∧
    (cleanup false (cleanup false ({ browserLaunched := true } : St))).succCloses ≤
      ({ browserLaunched := true } : St).succCloses + 1 :=
  c9_close_idempotent { browserLaunched := true } false false

/-- C10: cleanup never throws - a close error is swallowed with the
state as of the throw point - and the closed flag is set only when
`browser.close()` succeeds, so a failed close leaves it unset; with no
browser launched, cleanup is a no-op. -/
theorem c10_cleanup_total (s : St) (f : Bool) :
    (∀ e, cleanupBody f s = Except.error e → cleanup f s = e) ∧
    (cleanup true s).pageClosed = s.pageClosed ∧
    (s.browserLaunched = false → cleanup f s = s) ∧
    (s.browserLaunched = true → s.pageClosed = false →
      (cleanup true s).pageClosed = false ∧
      (cleanup true s).closeCalls = s.closeCalls + 1 ∧
      (cleanup false s).pageClosed = true) := by
  refine ⟨fun e he => by unfold cleanup; rw [he], ?_, ?_, ?_⟩
  · unfold cleanup cleanupBody
    split_ifs <;> simp_all
  · intro hb
    unfold cleanup cleanupBody
    rw [if_neg (by simp [hb])]
  · intro hb hc
    have hcond : (!s.pageClosed && s.browserLaunched) = true := by simp [hb, hc]
    unfold cleanup cleanupBody
    simp [hcond, hc, hb]

/-- Witness for C10 from a live-browser state with a throwing close. -/
theorem c10_cleanup_total_witness :
    (∀ e, cleanupBody true { browserLaunched := true } = Except.error e →
      cleanup true { browserLaunched := true } = e) ∧
    (cleanup true ({ browserLaunched := true } : St)).pageClosed =
      ({ browserLaunched := true } : St).pageClosed ∧
    (({ browserLaunched := true } : St).browserLaunched = false →
      cleanup true { browserLaunched := true } = { browserLaunched := true }) ∧
    (({ browserLaunched := true } : St).browserLaunched = true →
      ({ browserLaunched := true } : St).pageClosed = false →
      (cleanup true ({ browserLaunched := true } : St)).pageClosed = false ∧
      (cleanup true ({ browserLaunched := true } : St)).closeCalls =
        ({ browserLaunched := true } : St).closeCalls + 1 ∧
      (cleanup false ({ browserLaunched := true } : St)).pageClosed = true) :=
  c10_cleanup_total { browserLaunched := true } true

/-- C4: a DNS resolution that fails or returns no addresses yields a
rejected host check, and the handler then returns exactly the
DisallowedHost response (HTTP 400), having queried DNS once and done
nothing else. -/
theorem c4_dns_fail_closed (o : Oracle) (u : String) (debug : Bool) (parts : UrlParts)
    (hu : u ≠ "") (hv : isValidHttpUrl o.parse u = true)
    (hp : o.parse u = some parts) (hh1 : parts.hostname ≠ "")
    (hh2 : parts.hostname ≠ "localhost")
    (hdns : o.lookup parts.hostname = none ∨ o.lookup parts.hostname = some []) :
    (isHostAllowed o.parse o.lookup u).1 = false ∧
    handler o "GET" (some u) debug =
      (Resp.disallowedHost, { trace := [Ev.dns parts.hostname] }) ∧
    respStatus Resp.disallowedHost = 400 := by
  have hhc : isHostAllowed o.parse o.lookup u = (false, [Ev.dns parts.hostname]) := by
    unfold isHostAllowed
    simp only [hp]
    rw [if_neg hh1, if_neg hh2]
    rcases hdns with hd | hd <;> simp only [hd] <;> simp
  refine ⟨by rw [hhc], ?_, rfl⟩
  unfold handler
  rw [if_neg (by simp)]
  simp only [hhc]
  rw [if_neg (by simp [hu]), if_neg (by simp [hv])]
  simp

/-- C3: when the timer fires with the scrape past browser launch, the
timeout cleanup runs and is awaited before the Timeout rejection is
produced - the state carried by the rejection already records the close -
and the handler then reports 504 Timeout with `browser.close()` invoked
exactly once by that point. -/
theorem c3_timeout_cleanup_before_report (o : Oracle) (u : String) (debug : Bool)
    (htf : o.timerFirst = true) (hcut : o.cut = Cut.duringWork)
    (hcf : o.closeFails = false)
    (hu : ¬u = "") (hv : isValidHttpUrl o.parse u = true)
    (hh : (isHostAllowed o.parse o.lookup u).1 = true) :
    (∀ s : St, s.pageClosed = false →
      (withTimeoutRun o debug s).1 = Except.error "Timeout" ∧
      (withTimeoutRun o debug s).2.closeCalls = s.closeCalls + 1 ∧
      (withTimeoutRun o debug s).2.pageClosed = true) ∧
    (handler o "GET" (some u) debug).1 = Resp.timeout ∧
    respStatus (handler o "GET" (some u) debug).1 = 504 ∧
    (handler o "GET" (some u) debug).2.closeCalls = 1 ∧
    (handler o "GET" (some u) debug).2.pageClosed = true := by
  have hrun : ∀ s : St, s.pageClosed = false →
      (withTimeoutRun o debug s).1 = Except.error "Timeout" ∧
      (withTimeoutRun o debug s).2.closeCalls = s.closeCalls + 1 ∧
      (withTimeoutRun o debug s).2.pageClosed = true := by
    intro s hs
    unfold withTimeoutRun opPartialState cleanup cleanupBody
    simp only [htf, hcut, hcf, if_true]
    simp [hs]
  obtain ⟨h1, h2, h3⟩ := hrun { trace := (isHostAllowed o.parse o.lookup u).2 } rfl
  have hnoop : cleanup o.closeFails
      (withTimeoutRun o debug { trace := (isHostAllowed o.parse o.lookup u).2 }).2 =
      (withTimeoutRun o debug { trace := (isHostAllowed o.parse o.lookup u).2 }).2 := by
    unfold cleanup cleanupBody
    rw [if_neg (by simp [h3])]
  have hfull : handler o "GET" (some u) debug =
      (Resp.timeout,
        (withTimeoutRun o debug { trace := (isHostAllowed o.parse o.lookup u).2 }).2) := by
    simp only [handler]
    rw [if_neg (by simp)]
    rw [if_neg hu, if_neg (by simp [hv]), if_neg (by simp [hh])]
    simp only [h1]
    rw [hnoop]
    rw [if_neg (by decide)]
    simp
  refine ⟨hrun, ?_, ?_, ?_, ?_⟩ <;> rw [hfull] <;>
    first | rfl | simpa using h2 | exact h3

/-- Witness for C3. -/
theorem c3_timeout_cleanup_before_report_witness :
    (∀ s : St, s.pageClosed = false →
      (withTimeoutRun { oW with timerFirst := true } false s).1 =
        Except.error "Timeout" ∧
      (withTimeoutRun { oW with timerFirst := true } false s).2.closeCalls =
        s.closeCalls + 1 ∧
      (withTimeoutRun { oW with timerFirst := true } false s).2.pageClosed = true) ∧
    (handler { oW with timerFirst := true } "GET" (some "https://example.com")
      false).1 = Resp.timeout ∧
    respStatus (handler { oW with timerFirst := true } "GET"
      (some "https://example.com") false).1 = 504 ∧
    (handler { oW with timerFirst := true } "GET" (some "https://example.com")
      false).2.closeCalls = 1 ∧
    (handler { oW with timerFirst := true } "GET" (some "https://example.com")
      false).2.pageClosed = true :=
  c3_timeout_cleanup_before_report { oW with timerFirst := true }
    "https://example.com" false rfl rfl rfl (by decide) (by decide) (by decide)

/-- Witness for C4 at a hostname whose resolution fails. -/
theorem c4_dns_fail_closed_witness :
    (isHostAllowed parseW (fun _ => none) "https://example.com").1 = false ∧
    handler { oW with lookup := fun _ => none } "GET" (some "https://example.com")
      false = (Resp.disallowedHost, { trace := [Ev.dns "example.com"] }) ∧
    respStatus Resp.disallowedHost = 400 :=
  c4_dns_fail_closed { oW with lookup := fun _ => none } "https://example.com"
    false ⟨"https:", "example.com"⟩ (by decide) (by decide) rfl (by decide)
    (by decide) (Or.inl rfl)

lemma scrapeOp_fields (o : Oracle) (debug : Bool) (s : St)
    (hl : o.launchErr = none) :
    (scrapeOp o debug s).2.navTimeout = some (TIMEOUT - 2000) ∧
    (scrapeOp o debug s).2.actTimeout = some (TIMEOUT - 2000) ∧
    (scrapeOp o debug s).2.raceMs = s.raceMs := by
  unfold scrapeOp
  rw [hl]
  rcases hnav : (navLoop o.gotoErr).1 with e | v <;> simp only [hnav]
  · simp
  · split_ifs <;>
      simp [(cleanup_fields o.closeFails _).1, (cleanup_fields o.closeFails _).2.1,
        (cleanup_fields o.closeFails _).2.2.1]

/-- C8: the per-navigation and per-action page timeouts are the global
budget minus a 2-second margin; the global budget is 20000 ms, the page
timeouts 18000 ms, and the race uses the full budget. -/
theorem c8_timeout_margins (o : Oracle) (u : String) (debug : Bool)
    (hu : ¬u = "") (hv : isValidHttpUrl o.parse u = true)
    (hh : (isHostAllowed o.parse o.lookup u).1 = true)
    (htf : o.timerFirst = false) (hl : o.launchErr = none) :
    TIMEOUT = 20000 ∧ TIMEOUT - 2000 = 18000 ∧
    (handler o "GET" (some u) debug).2.navTimeout = some (TIMEOUT - 2000) ∧
    (handler o "GET" (some u) debug).2.actTimeout = some (TIMEOUT - 2000) ∧
    (handler o "GET" (some u) debug).2.raceMs = some TIMEOUT := by
  have hrunfields : ∀ s : St,
      (withTimeoutRun o debug s).2.navTimeout = some (TIMEOUT - 2000) ∧
      (withTimeoutRun o debug s).2.actTimeout = some (TIMEOUT - 2000) ∧
      (withTimeoutRun o debug s).2.raceMs = some TIMEOUT := by
    intro s
    unfold withTimeoutRun
    rw [htf]
    simp only [Bool.false_eq_true, if_false]
    exact scrapeOp_fields o debug _ hl
  have hstate : (handler o "GET" (some u) debug).2 =
      (withTimeoutRun o debug { trace := (isHostAllowed o.parse o.lookup u).2 }).2 ∨
      (handler o "GET" (some u) debug).2 = cleanup o.closeFails
        (withTimeoutRun o debug { trace := (isHostAllowed o.parse o.lookup u).2 }).2 := by
    simp only [handler]
    rw [if_neg (by simp)]
    rw [if_neg hu, if_neg (by simp [hv]), if_neg (by simp [hh])]
    rcases hres : (withTimeoutRun o debug
        { trace := (isHostAllowed o.parse o.lookup u).2 }).1 with m | res <;>
      simp only [hres]
    · split_ifs <;> simp
    · simp
  obtain ⟨hn, ha, hr⟩ := hrunfields { trace := (isHostAllowed o.parse o.lookup u).2 }
  obtain ⟨cn, ca, cr, -, -⟩ := cleanup_fields o.closeFails
    (withTimeoutRun o debug { trace := (isHostAllowed o.parse o.lookup u).2 }).2
  rcases hstate with hst | hst <;> rw [hst] <;>
    exact ⟨rfl, rfl, by simp [cn, ca, cr, hn, ha, hr]⟩

/-- Witness for C8. -/
theorem c8_timeout_margins_witness :
    TIMEOUT = 20000 ∧ TIMEOUT - 2000 = 18000 ∧
    (handler oW "GET" (some "https://example.com") false).2.navTimeout =
      some (TIMEOUT - 2000) ∧
    (handler oW "GET" (some "https://example.com") false).2.actTimeout =
      some (TIMEOUT - 2000) ∧
    (handler oW "GET" (some "https://example.com") false).2.raceMs = some TIMEOUT :=
  c8_timeout_margins oW "https://example.com" false (by decide) (by decide)
    (by decide) rfl rfl

/-! ## Trace lemmas: DNS happens only in the host check, renderer events
only after it -/

lemma isHostAllowed_trace (parse : String → Option UrlParts)
    (lookup : String → Option (List String)) (u : String) :
    (isHostAllowed parse lookup u).2 = [] ∨
    ∃ h, (isHostAllowed parse lookup u).2 = [Ev.dns h] := by
  unfold isHostAllowed
  rcases hp : parse u with _ | parts <;> simp only [hp]
  · simp
  · split_ifs
    · simp
    · simp
    · rcases hl : lookup parts.hostname with _ | addrs <;> simp only [hl]
      · simp
      · split_ifs <;> simp

lemma launch_not_mem_hostCheck (parse : String → Option UrlParts)
    (lookup : String → Option (List String)) (u : String) :
    Ev.launch ∉ (isHostAllowed parse lookup u).2 := by
  rcases isHostAllowed_trace parse lookup u with h | ⟨hn, h⟩ <;> rw [h] <;> simp

lemma navLoop_no_dns (g : Nat → Option String) (h : String) :
    Ev.dns h ∉ (navLoop g).2 := by
  unfold navLoop
  rcases hg1 : g 1 with _ | e1 <;> simp only [hg1]
  · simp
  · rcases hg2 : g 2 with _ | e2 <;> simp only [hg2] <;> simp

lemma cleanup_trace (f : Bool) (s : St) : (cleanup f s).trace = s.trace :=
  (cleanup_fields f s).2.2.2.1

lemma scrapeOp_trace (o : Oracle) (debug : Bool) (s : St) :
    ∃ evs, (scrapeOp o debug s).2.trace = s.trace ++ evs ∧
      ∀ h, Ev.dns h ∉ evs := by
  unfold scrapeOp
  rcases hle : o.launchErr with _ | m <;> simp only [hle]
  · rcases hnav : (navLoop o.gotoErr).1 with e | v <;> simp only [hnav]
    · refine ⟨[Ev.launch, Ev.setTimeoutsEv (TIMEOUT - 2000) (TIMEOUT - 2000)] ++
        (navLoop o.gotoErr).2, by simp, ?_⟩
      intro h hmem
      rcases List.mem_append.mp hmem with hm | hm
      · simp at hm
      · exact navLoop_no_dns o.gotoErr h hm
    · split_ifs <;>
        · refine ⟨[Ev.launch, Ev.setTimeoutsEv (TIMEOUT - 2000) (TIMEOUT - 2000)] ++
            (navLoop o.gotoErr).2, by rw [cleanup_trace]; simp, ?_⟩
          intro h hmem
          rcases List.mem_append.mp hmem with hm | hm
          · simp at hm
          · exact navLoop_no_dns o.gotoErr h hm
  · exact ⟨[Ev.launch], by simp, by simp⟩

lemma withTimeoutRun_trace (o : Oracle) (debug : Bool) (s : St) :
    ∃ evs, (withTimeoutRun o debug s).2.trace = s.trace ++ evs ∧
      ∀ h, Ev.dns h ∉ evs := by
  unfold withTimeoutRun opPartialState
  cases htf : o.timerFirst <;> simp only [htf]
  · simp only [Bool.false_eq_true, if_false]
    exact scrapeOp_trace o debug _
  · simp only [if_true]
    rcases hcut : o.cut with _ | _ <;> simp only [hcut]
    · exact ⟨[], by simp [cleanup_trace], by simp⟩
    · exact ⟨[Ev.launch, Ev.setTimeoutsEv (TIMEOUT - 2000) (TIMEOUT - 2000)],
        by simp [cleanup_trace], by simp⟩

lemma handler_trace_decomp (o : Oracle) (u : String) (debug : Bool) :
    (handler o "GET" (some u) debug).2.trace = [] ∨
    ((isHostAllowed o.parse o.lookup u).1 = false ∧
      (handler o "GET" (some u) debug).2.trace = (isHostAllowed o.parse o.lookup u).2) ∨
    ((isHostAllowed o.parse o.lookup u).1 = true ∧
      ∃ evs, (handler o "GET" (some u) debug).2.trace =
        (isHostAllowed o.parse o.lookup u).2 ++ evs ∧ ∀ h, Ev.dns h ∉ evs) := by
  simp only [handler]
  rw [if_neg (by simp)]
  by_cases hu0 : u = ""
  · rw [if_pos hu0]; left; rfl
  · rw [if_neg hu0]
    by_cases hv0 : isValidHttpUrl o.parse u = true
    · rw [if_neg (by simp [hv0])]
      by_cases hh0 : (isHostAllowed o.parse o.lookup u).1 = true
      · rw [if_neg (by simp [hh0])]
        right; right
        refine ⟨hh0, ?_⟩
        obtain ⟨evs, hevs, hnd⟩ := withTimeoutRun_trace o debug
          { trace := (isHostAllowed o.parse o.lookup u).2 }
        rcases hres : (withTimeoutRun o debug
            { trace := (isHostAllowed o.parse o.lookup u).2 }).1 with m | res <;>
          simp only [hres]
        · split_ifs <;> exact ⟨evs, by rw [cleanup_trace]; exact hevs, hnd⟩
        · exact ⟨evs, hevs, hnd⟩
      · rw [if_pos (by simp [Bool.not_eq_true] at hh0; simp [hh0])]
        right; left
        exact ⟨by simpa using hh0, rfl⟩
    · rw [if_pos (by simp [Bool.not_eq_true] at hv0; simp [hv0])]
      left; rfl

/-- C5: invalid or unparseable input short-circuits with InvalidInput
(HTTP 400) and an empty event trace - no DNS query, no renderer event;
more generally every run's trace is the host-check events followed by
renderer events only, renderer launch happens only after a passed check,
and the check itself never emits a launch event. -/
theorem c5_validation_precedes_resources (o : Oracle) (debug : Bool) :
    handler o "GET" none debug = (Resp.invalidUrl, {}) ∧
    (∀ u, isValidHttpUrl o.parse u = false →
      handler o "GET" (some u) debug = (Resp.invalidUrl, {})) ∧
    ({} : St).trace = [] ∧ respStatus Resp.invalidUrl = 400 ∧
    (∀ u, Ev.launch ∈ (handler o "GET" (some u) debug).2.trace →
      (isHostAllowed o.parse o.lookup u).1 = true) ∧
    (∀ u, (handler o "GET" (some u) debug).2.trace = [] ∨
      ∃ evs, (handler o "GET" (some u) debug).2.trace =
        (isHostAllowed o.parse o.lookup u).2 ++ evs ∧ (∀ h, Ev.dns h ∉ evs)) ∧
    (∀ u, Ev.launch ∉ (isHostAllowed o.parse o.lookup u).2) := by
  refine ⟨by simp [handler], ?_, rfl, rfl, ?_, ?_, ?_⟩
  · intro u hval
    simp only [handler]
    rw [if_neg (by simp)]
    by_cases hu0 : u = ""
    · rw [if_pos hu0]
    · rw [if_neg hu0, if_pos (by simp [hval])]
  · intro u hmem
    rcases handler_trace_decomp o u debug with hd | ⟨hfalse, hd⟩ | ⟨htrue, -⟩
    · rw [hd] at hmem; simp at hmem
    · rw [hd] at hmem
      exact absurd hmem (launch_not_mem_hostCheck o.parse o.lookup u)
    · exact htrue
  · intro u
    rcases handler_trace_decomp o u debug with hd | ⟨hfalse, hd⟩ | ⟨htrue, evs, hd, hnd⟩
    · left; exact hd
    · right; exact ⟨[], by rw [hd, List.append_nil], by simp⟩
    · right; exact ⟨evs, hd, hnd⟩
  · intro u
    exact launch_not_mem_hostCheck o.parse o.lookup u

/-- Witness for C5. -/
theorem c5_validation_precedes_resources_witness :
    handler oW "GET" none false = (Resp.invalidUrl, {}) ∧
    (∀ u, isValidHttpUrl oW.parse u = false →
      handler oW "GET" (some u) false = (Resp.invalidUrl, {})) ∧
    ({} : St).trace = [] ∧ respStatus Resp.invalidUrl = 400 ∧
    (∀ u, Ev.launch ∈ (handler oW "GET" (some u) false).2.trace →
      (isHostAllowed oW.parse oW.lookup u).1 = true) ∧
    (∀ u, (handler oW "GET" (some u) false).2.trace = [] ∨
      ∃ evs, (handler oW "GET" (some u) false).2.trace =
        (isHostAllowed oW.parse oW.lookup u).2 ++ evs ∧ (∀ h, Ev.dns h ∉ evs)) ∧
    (∀ u, Ev.launch ∉ (isHostAllowed oW.parse oW.lookup u).2) :=
  c5_validation_precedes_resources oW false

lemma handler_resp_eq_of_wtr (o o' : Oracle) (u : String) (debug : Bool)
    (hparse : o'.parse = o.parse) (hlookup : o'.lookup = o.lookup)
    (hwt : ∀ s : St, (withTimeoutRun o' debug s).1 = (withTimeoutRun o debug s).1) :
    (handler o' "GET" (some u) debug).1 = (handler o "GET" (some u) debug).1 := by
  simp only [handler, hparse, hlookup]
  split_ifs <;>
    first
    | rfl
    | (rw [hwt]
       rcases hres : (withTimeoutRun o debug
           { trace := (isHostAllowed o.parse o.lookup u).2 }).1 with m | res <;>
         simp only [hres] <;>
         first | rfl | (split_ifs <;> rfl))

/-- C6: navigation attempts `page.goto` at most twice - the trace holds
one attempt, or two attempts separated by a single fixed 250 ms sleep;
a first-attempt success stops there; a failure followed by a success
returns Ok; a second failure propagates that error; and a
fails-once-then-succeeds run produces the same handler response as an
always-succeeding one (the retry is transparent). -/
theorem c6_navigation_retry (o : Oracle) (u : String) (debug : Bool) :
    (∀ g : Nat → Option String,
      (navLoop g).2 = [Ev.goto 1] ∨
      (navLoop g).2 = [Ev.goto 1, Ev.sleep 250, Ev.goto 2]) ∧
    (∀ g : Nat → Option String, g 1 = none →
      navLoop g = (Except.ok (), [Ev.goto 1])) ∧
    (∀ (g : Nat → Option String) (e : String), g 1 = some e → g 2 = none →
      navLoop g = (Except.ok (), [Ev.goto 1, Ev.sleep 250, Ev.goto 2])) ∧
    (∀ (g : Nat → Option String) (e1 e2 : String), g 1 = some e1 → g 2 = some e2 →
      navLoop g = (Except.error e2, [Ev.goto 1, Ev.sleep 250, Ev.goto 2])) ∧
    (∀ e : String, o.gotoErr 1 = some e → o.gotoErr 2 = none →
      (handler o "GET" (some u) debug).1 =
        (handler { o with gotoErr := fun _ => none } "GET" (some u) debug).1) := by
  refine ⟨?_, ?_, ?_, ?_, ?_⟩
  · intro g
    unfold navLoop
    rcases hg1 : g 1 with _ | e1 <;> simp only [hg1]
    · trivial
    · rcases hg2 : g 2 with _ | e2 <;> simp only [hg2] <;> trivial
  · intro g hg
    unfold navLoop
    simp only [hg]
  · intro g e hg1 hg2
    unfold navLoop
    simp only [hg1, hg2]
  · intro g e1 e2 hg1 hg2
    unfold navLoop
    simp only [hg1, hg2]
  · intro e hg1 hg2
    have hwt : ∀ s : St, (withTimeoutRun { o with gotoErr := fun _ => none } debug s).1 =
        (withTimeoutRun o debug s).1 := by
      intro s
      unfold withTimeoutRun opPartialState scrapeOp
      have hn1 : navLoop o.gotoErr =
          (Except.ok (), [Ev.goto 1, Ev.sleep 250, Ev.goto 2]) := by
        unfold navLoop
        simp only [hg1, hg2]
      have hn2 : navLoop (fun _ : Nat => (none : Option String)) =
          (Except.ok (), [Ev.goto 1]) := rfl
      cases htf : o.timerFirst <;>
        simp only [htf, Bool.false_eq_true, if_false, if_true] <;>
        first
        | rfl
        | (rcases hle : o.launchErr with _ | m <;>
            simp only [hle, hn1, hn2] <;>
            first | rfl | (split_ifs <;> rfl))
    exact (handler_resp_eq_of_wtr o { o with gotoErr := fun _ => none } u debug
      rfl rfl hwt).symm

/-- Witness for C6 with a navigation that fails once then succeeds. -/
theorem c6_navigation_retry_witness :
    navLoop (fun n => if n == 1 then some "net::ERR_TIMED_OUT" else none) =
      (Except.ok (), [Ev.goto 1, Ev.sleep 250, Ev.goto 2]) ∧
    (handler { oW with gotoErr := fun n => if n == 1 then some "net::ERR_TIMED_OUT" else none }
        "GET" (some "https://example.com") false).1 =
      (handler { { oW with gotoErr := fun n => if n == 1 then some "net::ERR_TIMED_OUT" else none }
          with gotoErr := fun _ => none } "GET" (some "https://example.com") false).1 :=
  ⟨(c6_navigation_retry oW "https://example.com" false).2.2.1
      (fun n => if n == 1 then some "net::ERR_TIMED_OUT" else none)
      "net::ERR_TIMED_OUT" rfl rfl,
    (c6_navigation_retry
      { oW with gotoErr := fun n => if n == 1 then some "net::ERR_TIMED_OUT" else none }
      "https://example.com" false).2.2.2.2 "net::ERR_TIMED_OUT" rfl rfl⟩

end Scrape
